import Mathlib

/-!
Verification of the Monte Carlo projection engine of the Rwanda agriculture
digital twin (`src/app.py`, `src/data/models/monte_carlo.py`) and of the
interval updates of its calibration scripts (`src/calibrate.py`,
`src/calibrate_alpha_scale.py`).

Machine floats are modelled by exact rationals.  The numpy pseudorandom
generator is modelled abstractly: `gauss seed k` is the k-th standard normal
variate produced after `np.random.seed seed`, and `np.random.normal 0 sigma`
returns `sigma * gauss seed k` while advancing the draw counter — this is
exactly how numpy scales its standard draws.  The global generator is an
explicit `RngState` threaded through the simulation.
-/

namespace RwandaTwin

/-- The numpy global generator state: the seed last passed to
`np.random.seed` and the number of standard-normal draws consumed since. -/
structure RngState where
  seed : Nat
  counter : Nat

/-- `np.random.seed k` resets the global generator. -/
def npSeed (k : Nat) : RngState := ⟨k, 0⟩

/-! Engine constants of `MonteCarloEngine.__init__` in `src/app.py`
(lines 21–49). -/

def base_year : Nat := 2025

def target_year : Nat := 2050

def base_ag_ppp : ℚ := 803

def target_ag_ppp : ℚ := 7000

def base_growth_rate : ℚ := 0.055

def base_volatility : ℚ := 0.02

def baseline_alpha : ℚ := 0.02480

def alpha_scale : ℚ := 0.1100

def beta_scale : ℚ := 1.0

def volatility_floor : ℚ := 0.05

/-- The 20 alpha coefficients (`self.alpha`, app.py lines 37–41). -/
def alpha : List ℚ :=
  [0.011, 0.013, 0.016, 0.012, 0.015, 0.015, 0.015, 0.012, 0.013,
   0.015, 0.014, 0.014, 0.010, 0.013, 0.014, 0.011, 0.011,
   0.014, 0.016, 0.015]

/-- The 20 beta coefficients (`self.beta`, app.py lines 43–47). -/
def beta : List ℚ :=
  [0.006, 0.005, 0.007, 0.012, 0.005, 0.005, 0.007, 0.006, 0.005,
   0.006, 0.007, 0.007, 0.009, 0.011, 0.005, 0.005, 0.011,
   0.007, 0.005, 0.013]

/-- `np.dot` of two 1-D arrays (defined on the common prefix; numpy raises
`ValueError` when the lengths differ, which `run_simulation` surfaces as its
failure case). -/
def npDot (xs ys : List ℚ) : ℚ := (List.zipWith (· * ·) xs ys).sum

/-- `effective_alpha = self.alpha * self.alpha_scale` (app.py line 56). -/
def effective_alpha : List ℚ := alpha.map (fun a => a * alpha_scale)

/-- `effective_beta = self.beta * self.beta_scale` (app.py line 57). -/
def effective_beta : List ℚ := beta.map (fun b => b * beta_scale)

/-- `drift = self.base_growth_rate + self.baseline_alpha +
np.dot(effective_alpha, intervention_vector)` (app.py line 60). -/
def drift (v : List ℚ) : ℚ :=
  base_growth_rate + baseline_alpha + npDot effective_alpha v

/-- `vol = max(self.volatility_floor, self.base_volatility -
np.dot(effective_beta, intervention_vector))` (app.py line 62). -/
def vol (v : List ℚ) : ℚ :=
  max volatility_floor (base_volatility - npDot effective_beta v)

/-- The inner loop of `run_simulation` (app.py lines 66–69): one path,
`years` annual steps, each drawing `shock = np.random.normal(0, vol)` — i.e.
`vo * gauss` at the current counter — and updating
`ppp *= (1 + drift + shock)`. -/
def simYears (gauss : Nat → Nat → ℚ) (d vo : ℚ) :
    Nat → ℚ → RngState → ℚ × RngState
  | 0, ppp, s => (ppp, s)
  | y + 1, ppp, s =>
      simYears gauss d vo y (ppp * (1 + d + vo * gauss s.seed s.counter))
        ⟨s.seed, s.counter + 1⟩

/-- The outer loop of `run_simulation` (app.py lines 64–70): `n` paths run
sequentially, each starting at `base_ag_ppp`, sharing the one global
generator state. -/
def simPaths (gauss : Nat → Nat → ℚ) (d vo : ℚ) (years : Nat) :
    Nat → RngState → List ℚ × RngState
  | 0, s => ([], s)
  | n + 1, s =>
      let r := simYears gauss d vo years base_ag_ppp s
      let rest := simPaths gauss d vo years n r.2
      (r.1 :: rest.1, rest.2)

/-- Number of elements at or above the threshold:
`np.mean(results_array >= t)`'s numerator. -/
def countGE (t : ℚ) (xs : List ℚ) : Nat :=
  xs.countP (fun x => decide (t ≤ x))

/-- `float(np.mean(results_array >= self.target_ag_ppp))` (app.py line 73). -/
def probability (xs : List ℚ) : ℚ :=
  (countGE target_ag_ppp xs : ℚ) / (xs.length : ℚ)

/-- `np.mean`. -/
def npMean (xs : List ℚ) : ℚ := xs.sum / (xs.length : ℚ)

/-- Insertion into a sorted list, for `np.sort`. -/
def insertSorted (x : ℚ) : List ℚ → List ℚ
  | [] => [x]
  | y :: ys => if x ≤ y then x :: y :: ys else y :: insertSorted x ys

/-- Ascending sort, as used by `np.percentile` / `np.median`. -/
def sortQ : List ℚ → List ℚ
  | [] => []
  | x :: xs => insertSorted x (sortQ xs)

/-- `np.percentile(a, q)` with numpy's default linear interpolation:
position `h = (n-1)·q/100` in the sorted data, interpolating between the
two bracketing order statistics. -/
def npPercentile (xs : List ℚ) (q : ℚ) : ℚ :=
  let s := sortQ xs
  let h : ℚ := ((s.length : ℚ) - 1) * q / 100
  let i : Nat := (Rat.floor h).toNat
  let lo := s.getD i 0
  let hi := s.getD (i + 1) lo
  lo + (h - (i : ℚ)) * (hi - lo)

/-- `np.median` equals the 50th percentile under linear interpolation. -/
def npMedian (xs : List ℚ) : ℚ := npPercentile xs 50

/-- The `quantiles` sub-dict of the returned record (app.py lines 80–86). -/
structure Quantiles where
  p5 : ℚ
  p25 : ℚ
  p50 : ℚ
  p75 : ℚ
  p95 : ℚ

/-- The record returned by the serving engine's `run_simulation`
(app.py lines 75–87).  Note: it has no standard-deviation field. -/
structure SimResult where
  probability : ℚ
  mean_ppp : ℚ
  median_ppp : ℚ
  distribution : List ℚ
  quantiles : Quantiles

/-- The five percentile cut-points (app.py lines 80–86). -/
def quantilesOf (xs : List ℚ) : Quantiles :=
  ⟨npPercentile xs 5, npPercentile xs 25, npPercentile xs 50,
   npPercentile xs 75, npPercentile xs 95⟩

/-- Keys of the dict literal returned by `run_simulation` in `src/app.py`
(lines 75–87). -/
def appResultKeys : List String :=
  ["probability", "mean_ppp", "median_ppp", "distribution", "quantiles"]

/-- Keys of the dict returned by `run_simulation` in
`src/data/models/monte_carlo.py` (lines 96–112); this variant does include
a standard deviation under `std_ppp`. -/
def modelResultKeys : List String :=
  ["probability", "mean_ppp", "median_ppp", "std_ppp", "distribution",
   "quantiles", "drift", "volatility", "simulation_params"]

/-- `MonteCarloEngine.run_simulation` of `src/app.py` (lines 51–87), made
explicit about the global numpy generator: it receives the incoming global
state `s0`, immediately overwrites it via `np.random.seed(42)` (line 53),
and returns the result together with the outgoing state.  The call fails
(returns `none`) exactly when the vector length differs from the
20-entry coefficient table: `np.dot` raises `ValueError` on the length
mismatch (the model-layer twin `monte_carlo.py` line 58 raises the same
error from an explicit length check). -/
def run_simulation_from (gauss : Nat → Nat → ℚ) (s0 : RngState)
    (v : List ℚ) (n : Nat) : Option SimResult × RngState :=
  let s1 := npSeed 42
  if v.length = effective_alpha.length then
    let d := drift v
    let vo := vol v
    let r := simPaths gauss d vo (target_year - base_year) n s1
    (some { probability := probability r.1
            mean_ppp := npMean r.1
            median_ppp := npMedian r.1
            distribution := r.1
            quantiles := quantilesOf r.1 }, r.2)
  else (none, s1)

/-- `run_simulation` as seen by a caller who only looks at the returned
record (the incoming generator state is irrelevant — see the determinism
theorem). -/
def run_simulation (gauss : Nat → Nat → ℚ) (v : List ℚ) (n : Nat) :
    Option SimResult :=
  (run_simulation_from gauss (npSeed 0) v n).1

/-- Distribution of a possibly-failed run (empty on failure). -/
def distOf (o : Option SimResult) : List ℚ :=
  (o.map SimResult.distribution).getD []

/-- Probability of a possibly-failed run (0 on failure). -/
def probOf (o : Option SimResult) : ℚ :=
  (o.map SimResult.probability).getD 0

/-- The terminal-value list produced by a successful run (the 25-year
horizon is `target_year - base_year`, the generator is freshly seeded
with 42). -/
def simDist (gauss : Nat → Nat → ℚ) (v : List ℚ) (n : Nat) : List ℚ :=
  (simPaths gauss (drift v) (vol v) (target_year - base_year) n (npSeed 42)).1

/-- The 20 lever display names, in declaration order
(`INTERVENTIONS`, app.py lines 94–115). -/
def INTERVENTIONS : List String :=
  ["Land Consolidation",
   "Land Use Productivity",
   "Irrigation & Water Use Efficiency",
   "Climate Adaptation Index",
   "Staple Crop Productivity",
   "Cash Crop Productivity",
   "Livestock Productivity (Breed Improvement & Feeding Systems)",
   "Inputs Efficiency (fertilizer, seeds)",
   "Soil Health Indicators",
   "Mechanization",
   "Digital Agriculture Adoption",
   "R&D + Extension (AI-augmented advisory)",
   "Digital Twin simulations for plots & cooperatives",
   "Postharvest Loss (%)",
   "Storage/Processing Value Addition",
   "Access to Finance",
   "Insurance Penetration",
   "Domestic Market Integration",
   "Export Competitiveness",
   "Supply–Demand Stability Score (AI forecast model)"]

/-- The fixed default raw-percentage table (`DEFAULT_TARGETS`, app.py lines
117–140), as an association list: 35 for every lever except
"Postharvest Loss (%)", which defaults to 60. -/
def DEFAULT_TARGETS : List (String × ℚ) :=
  [("Land Consolidation", 35),
   ("Land Use Productivity", 35),
   ("Irrigation & Water Use Efficiency", 35),
   ("Climate Adaptation Index", 35),
   ("Staple Crop Productivity", 35),
   ("Cash Crop Productivity", 35),
   ("Livestock Productivity (Breed Improvement & Feeding Systems)", 35),
   ("Inputs Efficiency (fertilizer, seeds)", 35),
   ("Soil Health Indicators", 35),
   ("Mechanization", 35),
   ("Digital Agriculture Adoption", 35),
   ("R&D + Extension (AI-augmented advisory)", 35),
   ("Digital Twin simulations for plots & cooperatives", 35),
   ("Postharvest Loss (%)", 60),
   ("Storage/Processing Value Addition", 35),
   ("Access to Finance", 35),
   ("Insurance Penetration", 35),
   ("Domestic Market Integration", 35),
   ("Export Competitiveness", 35),
   ("Supply–Demand Stability Score (AI forecast model)", 35)]

/-- Python `dict.get(k, d)` over an association list. -/
def dictGet (m : List (String × ℚ)) (k : String) (d : ℚ) : ℚ :=
  (m.lookup k).getD d

/-- The loop body of `interventions_to_vector` (app.py lines 147–154) for
one lever: `value = interventions.get(name, DEFAULT_TARGETS.get(name, 50))`;
the "Postharvest Loss (%)" lever is inverted (`100 - value`); the result is
normalized to `[0,1]` by dividing by 100. -/
def lever_value (interventions : List (String × ℚ)) (intervention : String) : ℚ :=
  let value := dictGet interventions intervention
    (dictGet DEFAULT_TARGETS intervention 50)
  let effective_value :=
    if intervention = "Postharvest Loss (%)" then 100 - value else value
  effective_value / 100

/-- `interventions_to_vector` (app.py lines 144–155): the Python loop
appends one normalized entry per lever of `INTERVENTIONS`, in order. -/
def interventions_to_vector (interventions : List (String × ℚ)) : List ℚ :=
  INTERVENTIONS.foldl
    (fun vector intervention =>
      vector ++ [lever_value interventions intervention]) []

/-- One interval update of the bisection loop in `src/calibrate.py`
(lines 56–62): `mid = (low + high) / 2`; `if prob < target_prob:
high = mid else: low = mid`.  Returns the updated `(low, high)`. -/
def calibrateStep (low high prob target : ℚ) : ℚ × ℚ :=
  let mid := (low + high) / 2
  if prob < target then (low, mid) else (mid, high)

/-- One interval update of the calibration loop in
`src/calibrate_alpha_scale.py` (lines 101–107): `elif prob_max >
target_prob: high = mid else: low = mid`. -/
def calibrateAlphaScaleStep (low high prob target : ℚ) : ℚ × ℚ :=
  let mid := (low + high) / 2
  if prob > target then (low, mid) else (mid, high)

/-- A degenerate standard-normal stream in which every draw is 0 (used to
instantiate theorems at a concrete input). -/
def gauss0 : Nat → Nat → ℚ := fun _ _ => 0

/-- A pathological standard-normal stream in which every draw is −100
(≈ −100σ; astronomically unlikely but inside the support of a normal
distribution, which is all of ℝ). -/
def gaussNeg : Nat → Nat → ℚ := fun _ _ => -100

/-- The all-zero intervention vector (no intervention). -/
def v20zero : List ℚ := List.replicate 20 0

/-- The all-one intervention vector (full intervention). -/
def v20one : List ℚ := List.replicate 20 1

/-! Helper lemmas. -/

lemma effective_alpha_length : effective_alpha.length = 20 := rfl

lemma effective_beta_length : effective_beta.length = 20 := rfl

lemma years_eq : target_year - base_year = 25 := rfl

lemma npDot_eq_sum : ∀ (xs ys : List ℚ), xs.length ≤ ys.length →
    npDot xs ys = ∑ i ∈ Finset.range xs.length, xs.getD i 0 * ys.getD i 0 := by
  intro xs
  induction xs with
  | nil => intro ys _; simp [npDot]
  | cons x xs ih =>
      intro ys h
      cases ys with
      | nil => simp at h
      | cons y ys =>
          have htail := ih ys (by simpa using h)
          simp only [npDot, List.zipWith_cons_cons, List.sum_cons,
            List.length_cons]
          simp only [npDot] at htail
          rw [Finset.sum_range_succ']
          simp only [List.getD_cons_succ, List.getD_cons_zero]
          rw [← htail]
          ring

lemma npDot_nonneg : ∀ (xs ys : List ℚ), (∀ x ∈ xs, 0 ≤ x) →
    (∀ y ∈ ys, 0 ≤ y) → 0 ≤ npDot xs ys := by
  intro xs
  induction xs with
  | nil => intro ys _ _; simp [npDot]
  | cons x xs ih =>
      intro ys hx hy
      cases ys with
      | nil => simp [npDot]
      | cons y ys =>
          simp only [npDot, List.zipWith_cons_cons, List.sum_cons]
          have h1 : 0 ≤ x * y :=
            mul_nonneg (hx x (List.mem_cons_self x xs))
              (hy y (List.mem_cons_self y ys))
          have h2 := ih ys (fun a ha => hx a (List.mem_cons_of_mem x ha))
            (fun a ha => hy a (List.mem_cons_of_mem y ha))
          rw [npDot] at h2
          linarith

lemma npDot_mono : ∀ (xs ys zs : List ℚ), xs.length ≤ ys.length →
    ys.length = zs.length → (∀ x ∈ xs, 0 ≤ x) →
    (∀ i, i < ys.length → ys.getD i 0 ≤ zs.getD i 0) →
    npDot xs ys ≤ npDot xs zs := by
  intro xs
  induction xs with
  | nil => intro ys zs _ _ _ _; simp [npDot]
  | cons x xs ih =>
      intro ys zs h1 h2 hx hyz
      cases ys with
      | nil => simp at h1
      | cons y ys =>
          cases zs with
          | nil => simp at h2
          | cons z zs =>
              simp only [npDot, List.zipWith_cons_cons, List.sum_cons]
              have hyz0 : y ≤ z := by
                have := hyz 0 (by simp)
                simpa using this
              have hx0 : 0 ≤ x := hx x (List.mem_cons_self x xs)
              have hmul : x * y ≤ x * z := mul_le_mul_of_nonneg_left hyz0 hx0
              have htail : npDot xs ys ≤ npDot xs zs := by
                refine ih ys zs (by simpa using h1) (by simpa using h2)
                  (fun a ha => hx a (List.mem_cons_of_mem x ha)) ?_
                intro i hi
                have := hyz (i + 1) (by simpa using Nat.succ_lt_succ hi)
                simpa using this
              simp only [npDot] at htail
              linarith

/-- With nonnegative lever intensities the beta-driven volatility reduction
is nonnegative, so the clamp is decided by `base_volatility ≤
volatility_floor`; since the configured floor (0.05) exceeds the base
volatility (0.02), the clamp is always active. -/
lemma vol_eq_floor (v : List ℚ) (hv : ∀ x ∈ v, 0 ≤ x) :
    vol v = volatility_floor := by
  have hbeta : ∀ x ∈ effective_beta, (0:ℚ) ≤ x :=
    of_decide_eq_true (by with_unfolding_all rfl)
  have hdot : 0 ≤ npDot effective_beta v := npDot_nonneg _ _ hbeta hv
  have hlt : base_volatility - npDot effective_beta v ≤ volatility_floor := by
    have : base_volatility ≤ volatility_floor := by
      rw [base_volatility, volatility_floor]; norm_num
    linarith
  rw [vol]
  exact max_eq_left hlt

lemma drift_mono (vA vB : List ℚ) (hA : vA.length = 20) (hB : vB.length = 20)
    (hAB : ∀ i, i < 20 → vA.getD i 0 ≤ vB.getD i 0) :
    drift vA ≤ drift vB := by
  have halpha : ∀ x ∈ effective_alpha, (0:ℚ) ≤ x :=
    of_decide_eq_true (by with_unfolding_all rfl)
  have := npDot_mono effective_alpha vA vB
    (by rw [effective_alpha_length, hA]) (by rw [hA, hB]) halpha
    (by rw [hA]; exact hAB)
  rw [drift, drift]
  linarith

lemma simYears_eq (gauss : Nat → Nat → ℚ) (d vo : ℚ) :
    ∀ (y : Nat) (ppp : ℚ) (sd c : Nat),
      simYears gauss d vo y ppp ⟨sd, c⟩ =
        (ppp * ∏ j ∈ Finset.range y, (1 + d + vo * gauss sd (c + j)),
          ⟨sd, c + y⟩) := by
  intro y
  induction y with
  | zero => intro ppp sd c; simp [simYears]
  | succ y ih =>
      intro ppp sd c
      have step : simYears gauss d vo (y + 1) ppp ⟨sd, c⟩ =
          simYears gauss d vo y (ppp * (1 + d + vo * gauss sd c))
            ⟨sd, c + 1⟩ := rfl
      rw [step, ih]
      simp only [Prod.mk.injEq, RngState.mk.injEq]
      refine ⟨?_, trivial, by omega⟩
      rw [Finset.prod_range_succ']
      have hshift : (∏ j ∈ Finset.range y, (1 + d + vo * gauss sd (c + (j + 1)))) =
          ∏ j ∈ Finset.range y, (1 + d + vo * gauss sd (c + 1 + j)) := by
        apply Finset.prod_congr rfl
        intro j _
        have harith : c + (j + 1) = c + 1 + j := by omega
        rw [harith]
      have hc0 : c + 0 = c := rfl
      rw [hshift, hc0]
      ring

lemma simPaths_eq (gauss : Nat → Nat → ℚ) (d vo : ℚ) (years : Nat) :
    ∀ (n : Nat) (sd c : Nat),
      simPaths gauss d vo years n ⟨sd, c⟩ =
        ((List.range n).map (fun p =>
            base_ag_ppp *
              ∏ j ∈ Finset.range years, (1 + d + vo * gauss sd (c + years * p + j))),
          ⟨sd, c + years * n⟩) := by
  intro n
  induction n with
  | zero => intro sd c; simp [simPaths]
  | succ n ih =>
      intro sd c
      have step : simPaths gauss d vo years (n + 1) ⟨sd, c⟩ =
          ((simYears gauss d vo years base_ag_ppp ⟨sd, c⟩).1 ::
              (simPaths gauss d vo years n
                (simYears gauss d vo years base_ag_ppp ⟨sd, c⟩).2).1,
            (simPaths gauss d vo years n
              (simYears gauss d vo years base_ag_ppp ⟨sd, c⟩).2).2) := rfl
      rw [step, simYears_eq gauss d vo years base_ag_ppp sd c]
      dsimp only
      rw [ih]
      dsimp only
      simp only [Prod.mk.injEq, RngState.mk.injEq]
      have hmuln : years * (n + 1) = years * n + years := by ring
      refine ⟨?_, trivial, by omega⟩
      rw [List.range_succ_eq_map, List.map_cons, List.map_map]
      have hmulp : ∀ p : Nat, years * (p + 1) = years * p + years :=
        fun p => by ring
      congr 1
      · have hfun : (fun p => base_ag_ppp *
            ∏ j ∈ Finset.range years,
              (1 + d + vo * gauss sd (c + years + years * p + j))) =
            ((fun p => base_ag_ppp *
              ∏ j ∈ Finset.range years,
                (1 + d + vo * gauss sd (c + years * p + j))) ∘ Nat.succ) := by
          funext p
          simp only [Function.comp]
          congr 1
          apply Finset.prod_congr rfl
          intro j _
          have harith : c + years + years * p + j = c + years * (p + 1) + j := by
            have := hmulp p
            omega
          rw [harith]
        rw [hfun]

lemma getD_map_range : ∀ (n : Nat) (f : Nat → ℚ) (p : Nat), p < n →
    ((List.range n).map f).getD p 0 = f p := by
  intro n
  induction n with
  | zero => intro f p hp; exact absurd hp (Nat.not_lt_zero p)
  | succ n ih =>
      intro f p hp
      rw [List.range_succ_eq_map, List.map_cons, List.map_map]
      cases p with
      | zero => rfl
      | succ p =>
          rw [List.getD_cons_succ]
          have := ih (f ∘ Nat.succ) p (by omega)
          simpa using this

lemma getD_map_mul : ∀ (l : List ℚ) (c : ℚ) (i : Nat), i < l.length →
    (l.map (fun a => a * c)).getD i 0 = l.getD i 0 * c := by
  intro l
  induction l with
  | nil => intro c i hi; simp at hi
  | cons x xs ih =>
      intro c i hi
      cases i with
      | zero => rfl
      | succ i =>
          simp only [List.map_cons, List.getD_cons_succ]
          exact ih c i (by simpa using hi)

lemma getD_map_str : ∀ (l : List String) (f : String → ℚ) (i : Nat),
    i < l.length → (l.map f).getD i 0 = f (l.getD i "") := by
  intro l
  induction l with
  | nil => intro f i hi; simp at hi
  | cons x xs ih =>
      intro f i hi
      cases i with
      | zero => rfl
      | succ i =>
          simp only [List.map_cons, List.getD_cons_succ]
          exact ih f i (by simpa using hi)

lemma foldl_append_eq_map (f : String → ℚ) : ∀ (l : List String) (acc : List ℚ),
    l.foldl (fun vector x => vector ++ [f x]) acc = acc ++ l.map f := by
  intro l
  induction l with
  | nil => intro acc; simp
  | cons x xs ih =>
      intro acc
      simp only [List.foldl_cons, List.map_cons]
      rw [ih]
      simp

lemma itv_eq_map (m : List (String × ℚ)) :
    interventions_to_vector m = INTERVENTIONS.map (lever_value m) := by
  rw [interventions_to_vector, foldl_append_eq_map (lever_value m)]
  simp

lemma run_simulation_some (gauss : Nat → Nat → ℚ) (v : List ℚ) (n : Nat)
    (h : v.length = 20) :
    run_simulation gauss v n =
      some { probability := probability (simDist gauss v n)
             mean_ppp := npMean (simDist gauss v n)
             median_ppp := npMedian (simDist gauss v n)
             distribution := simDist gauss v n
             quantiles := quantilesOf (simDist gauss v n) } := by
  rw [run_simulation, run_simulation_from, simDist]
  rw [if_pos (by rw [h]; rfl)]

lemma run_simulation_none (gauss : Nat → Nat → ℚ) (v : List ℚ) (n : Nat)
    (h : v.length ≠ 20) : run_simulation gauss v n = none := by
  rw [run_simulation, run_simulation_from]
  rw [if_neg (by rw [effective_alpha_length]; exact h)]

lemma simDist_eq (gauss : Nat → Nat → ℚ) (v : List ℚ) (n : Nat) :
    simDist gauss v n = (List.range n).map (fun p =>
      base_ag_ppp * ∏ j ∈ Finset.range 25,
        (1 + drift v + vol v * gauss 42 (25 * p + j))) := by
  rw [simDist, years_eq, npSeed]
  rw [simPaths_eq gauss (drift v) (vol v) 25 n 42 0]
  dsimp only
  congr 1
  funext p
  congr 1
  apply Finset.prod_congr rfl
  intro j _
  have harith : 0 + 25 * p + j = 25 * p + j := by omega
  rw [harith]

lemma simDist_length (gauss : Nat → Nat → ℚ) (v : List ℚ) (n : Nat) :
    (simDist gauss v n).length = n := by
  rw [simDist_eq]
  simp

lemma simDist_getD (gauss : Nat → Nat → ℚ) (v : List ℚ) (n p : Nat)
    (hp : p < n) :
    (simDist gauss v n).getD p 0 =
      base_ag_ppp * ∏ j ∈ Finset.range 25,
        (1 + drift v + vol v * gauss 42 (25 * p + j)) := by
  rw [simDist_eq]
  exact getD_map_range n _ p hp

lemma countGE_map_le (t : ℚ) : ∀ (l : List Nat) (f g : Nat → ℚ),
    (∀ p ∈ l, f p ≤ g p) →
    countGE t (l.map f) ≤ countGE t (l.map g) := by
  intro l
  induction l with
  | nil => intro f g _; simp [countGE]
  | cons a l ih =>
      intro f g h
      have htail := ih f g (fun p hp => h p (List.mem_cons_of_mem a hp))
      have hha : f a ≤ g a := h a (List.mem_cons_self a l)
      simp only [countGE, List.map_cons, List.countP_cons] at htail ⊢
      by_cases hfa : t ≤ f a
      · have hga : t ≤ g a := le_trans hfa hha
        rw [decide_eq_true hfa, decide_eq_true hga]
        simp only [if_true]
        omega
      · rw [decide_eq_false hfa]
        simp only [Bool.false_eq_true, if_false]
        split <;> omega

/-! The claim theorems. -/

set_option maxRecDepth 100000

/-- C1: for every length-20 intervention vector the drift used by the
serving engine's `run_simulation` equals `base_growth_rate + baseline_alpha
+ Σ over the 20 levers of (alpha_scale · alpha_i · v_i)` with the fixed
alpha table, and every path's terminal value is the product of 25 annual
factors each containing this same constant drift — constant across the
horizon and across paths. -/
theorem c1_drift_formula (gauss : Nat → Nat → ℚ) (v : List ℚ) (n : Nat)
    (h : v.length = 20) :
    drift v = base_growth_rate + baseline_alpha +
        ∑ i ∈ Finset.range 20, alpha_scale * alpha.getD i 0 * v.getD i 0 ∧
    ∀ r, run_simulation gauss v n = some r → ∀ p, p < n →
      r.distribution.getD p 0 =
        base_ag_ppp * ∏ j ∈ Finset.range 25,
          (1 + drift v + vol v * gauss 42 (25 * p + j)) := by
  constructor
  · rw [drift, npDot_eq_sum _ _ (by rw [effective_alpha_length, h]),
      effective_alpha_length]
    congr 1
    apply Finset.sum_congr rfl
    intro i hi
    rw [effective_alpha,
      getD_map_mul alpha alpha_scale i (by simpa [alpha] using Finset.mem_range.mp hi)]
    ring
  · intro r hr p hp
    rw [run_simulation_some gauss v n h] at hr
    obtain rfl := (Option.some.inj hr).symm
    exact simDist_getD gauss v n p hp

/-- C1 witness: the theorem instantiated at the all-zero draw stream, the
all-zero intervention vector and one path. -/
theorem c1_drift_formula_witness :
    v20zero.length = 20 ∧
    (drift v20zero = base_growth_rate + baseline_alpha +
        ∑ i ∈ Finset.range 20, alpha_scale * alpha.getD i 0 * v20zero.getD i 0 ∧
     ∀ r, run_simulation gauss0 v20zero 1 = some r → ∀ p, p < 1 →
       r.distribution.getD p 0 =
         base_ag_ppp * ∏ j ∈ Finset.range 25,
           (1 + drift v20zero + vol v20zero * gauss0 42 (25 * p + j))) :=
  ⟨by decide, c1_drift_formula gauss0 v20zero 1 (by decide)⟩

/-- C2: for every length-20 vector the per-year shock standard deviation
equals `max(volatility_floor, base_volatility − Σ beta_scale·beta_i·v_i)`;
whenever the beta-weighted sum exceeds `base_volatility −
volatility_floor`, the realized volatility is exactly the floor. -/
theorem c2_volatility_formula (v : List ℚ) (h : v.length = 20) :
    vol v = max volatility_floor (base_volatility -
        ∑ i ∈ Finset.range 20, beta_scale * beta.getD i 0 * v.getD i 0) ∧
    ((∑ i ∈ Finset.range 20, beta_scale * beta.getD i 0 * v.getD i 0) >
        base_volatility - volatility_floor →
      vol v = volatility_floor) := by
  have hsum : npDot effective_beta v =
      ∑ i ∈ Finset.range 20, beta_scale * beta.getD i 0 * v.getD i 0 := by
    rw [npDot_eq_sum _ _ (by rw [effective_beta_length, h]),
      effective_beta_length]
    apply Finset.sum_congr rfl
    intro i hi
    rw [effective_beta,
      getD_map_mul beta beta_scale i (by simpa [beta] using Finset.mem_range.mp hi)]
    ring
  constructor
  · rw [vol, hsum]
  · intro hgt
    rw [vol, hsum]
    apply max_eq_left
    linarith

/-- C2 witness: the theorem instantiated at the all-one vector, for which
the beta-weighted sum (0.144) indeed exceeds `base_volatility −
volatility_floor` (−0.03), so the realized volatility is the floor. -/
theorem c2_volatility_formula_witness :
    v20one.length = 20 ∧
    (vol v20one = max volatility_floor (base_volatility -
        ∑ i ∈ Finset.range 20, beta_scale * beta.getD i 0 * v20one.getD i 0) ∧
     ((∑ i ∈ Finset.range 20, beta_scale * beta.getD i 0 * v20one.getD i 0) >
         base_volatility - volatility_floor →
       vol v20one = volatility_floor)) :=
  ⟨by decide, c2_volatility_formula v20one (by decide)⟩

/-- C3 counterexample: the claim lists a standard deviation among the
fields of the returned record, but the dict literal returned by the serving
engine's `run_simulation` (app.py lines 75–87) has no standard-deviation
key; only the model-layer engine (`monte_carlo.py`) returns `std_ppp`. -/
theorem c3_no_std_in_serving_record :
    "std_ppp" ∉ appResultKeys ∧ "std_ppp" ∈ modelResultKeys := by
  decide

/-- C3 amended: every successful serving-engine `run_simulation` call
returns a record with the success probability (the fraction of the n paths
whose terminal value is ≥ the target 7000, a ≥ comparison), the mean, the
median, the 5/25/50/75/95 percentile set and the full terminal-value
distribution — but no standard deviation. -/
theorem c3_result_record (gauss : Nat → Nat → ℚ) (v : List ℚ) (n : Nat)
    (h : v.length = 20) :
    ∃ r, run_simulation gauss v n = some r ∧
      r.distribution.length = n ∧
      r.probability =
        (((r.distribution.filter (fun x => decide (target_ag_ppp ≤ x))).length : ℚ) /
          (n : ℚ)) ∧
      r.mean_ppp = r.distribution.sum / (n : ℚ) ∧
      r.median_ppp = npPercentile r.distribution 50 ∧
      r.quantiles.p5 = npPercentile r.distribution 5 ∧
      r.quantiles.p25 = npPercentile r.distribution 25 ∧
      r.quantiles.p50 = npPercentile r.distribution 50 ∧
      r.quantiles.p75 = npPercentile r.distribution 75 ∧
      r.quantiles.p95 = npPercentile r.distribution 95 ∧
      target_ag_ppp = 7000 ∧ "std_ppp" ∉ appResultKeys := by
  refine ⟨_, run_simulation_some gauss v n h, simDist_length gauss v n,
    ?_, ?_, rfl, rfl, rfl, rfl, rfl, rfl, rfl, by decide⟩
  · show probability (simDist gauss v n) = _
    rw [probability, simDist_length, countGE, List.countP_eq_length_filter]
  · show npMean (simDist gauss v n) = _
    rw [npMean, simDist_length]

/-- C3 witness: the amended theorem instantiated at the all-zero draw
stream, the all-zero vector and one path. -/
theorem c3_result_record_witness :
    v20zero.length = 20 ∧
    (∃ r, run_simulation gauss0 v20zero 1 = some r ∧
      r.distribution.length = 1 ∧
      r.probability =
        (((r.distribution.filter (fun x => decide (target_ag_ppp ≤ x))).length : ℚ) /
          ((1 : Nat) : ℚ)) ∧
      r.mean_ppp = r.distribution.sum / ((1 : Nat) : ℚ) ∧
      r.median_ppp = npPercentile r.distribution 50 ∧
      r.quantiles.p5 = npPercentile r.distribution 5 ∧
      r.quantiles.p25 = npPercentile r.distribution 25 ∧
      r.quantiles.p50 = npPercentile r.distribution 50 ∧
      r.quantiles.p75 = npPercentile r.distribution 75 ∧
      r.quantiles.p95 = npPercentile r.distribution 95 ∧
      target_ag_ppp = 7000 ∧ "std_ppp" ∉ appResultKeys) :=
  ⟨by decide, c3_result_record gauss0 v20zero 1 (by decide)⟩

/-- C4: the serving engine's `run_simulation` fails (the `ValueError` of
the length validation, surfaced by `np.dot` in app.py and raised explicitly
in monte_carlo.py) exactly when the supplied vector's length differs from
the 20 configured interventions, and for a length-20 vector the failure
branch is unreachable and the simulation proceeds. -/
theorem c4_length_validation (gauss : Nat → Nat → ℚ) (v : List ℚ) (n : Nat) :
    (run_simulation gauss v n = none ↔ v.length ≠ 20) ∧
    (v.length = 20 → (run_simulation gauss v n).isSome = true) := by
  refine ⟨⟨?_, run_simulation_none gauss v n⟩, ?_⟩
  · intro hnone h20
    rw [run_simulation_some gauss v n h20] at hnone
    exact Option.noConfusion hnone
  · intro h20
    rw [run_simulation_some gauss v n h20]
    rfl

/-- C5 (bug in `src/calibrate.py`): with the script's own initial interval
[0.05, 0.30] and an observed probability 0.5 below the target 0.8,
`calibrate.py` LOWERS the upper bound to the midpoint 0.175 and keeps the
lower bound — it searches lower parameter values, the direction opposite to
the monotonic relationship (raising the parameter raises drift and hence the
probability); its sibling `calibrate_alpha_scale.py` raises the lower bound
to the midpoint at the same input, as the claim states. -/
theorem c5_calibrate_step_bug :
    (0.5 : ℚ) < 0.8 ∧
    calibrateStep 0.05 0.30 0.5 0.8 = (0.05, 0.175) ∧
    calibrateAlphaScaleStep 0.05 0.30 0.5 0.8 = (0.175, 0.30) :=
  ⟨of_decide_eq_true (by with_unfolding_all rfl),
   of_decide_eq_true (by with_unfolding_all rfl),
   of_decide_eq_true (by with_unfolding_all rfl)⟩

/-- C7: the returned record is a function of the draw stream, the vector
and the simulation count alone — the incoming global generator state is
discarded by the `np.random.seed(42)` reseed at the start of every call, so
two calls with identical vector, N and seed return identical records
(probability, statistics and full distribution alike). -/
theorem c7_determinism (gauss : Nat → Nat → ℚ) (s1 s2 : RngState)
    (v : List ℚ) (n : Nat) :
    (run_simulation_from gauss s1 v n).1 = (run_simulation_from gauss s2 v n).1 ∧
    (run_simulation_from gauss s1 v n).1 = run_simulation gauss v n :=
  ⟨rfl, rfl⟩

/-- C6: `interventions_to_vector` returns exactly 20 entries in declaration
order; a lever supplied with raw value `raw` contributes `raw/100`, except
the single inverted lever "Postharvest Loss (%)" which contributes
`(100 − raw)/100`; an omitted lever takes its default raw value from the
fixed table (60 for Postharvest Loss, i.e. an effective intensity 0.40). -/
theorem c6_interventions_to_vector (m : List (String × ℚ)) (i : Nat)
    (hi : i < 20) :
    (interventions_to_vector m).length = 20 ∧
    (∀ raw, m.lookup (INTERVENTIONS.getD i "") = some raw →
      (interventions_to_vector m).getD i 0 =
        (if INTERVENTIONS.getD i "" = "Postharvest Loss (%)"
         then (100 - raw) / 100 else raw / 100)) ∧
    (m.lookup (INTERVENTIONS.getD i "") = none →
      (interventions_to_vector m).getD i 0 =
        (if INTERVENTIONS.getD i "" = "Postharvest Loss (%)"
         then (100 - (DEFAULT_TARGETS.lookup (INTERVENTIONS.getD i "")).getD 50) / 100
         else ((DEFAULT_TARGETS.lookup (INTERVENTIONS.getD i "")).getD 50) / 100)) ∧
    INTERVENTIONS.getD 13 "" = "Postharvest Loss (%)" ∧
    DEFAULT_TARGETS.lookup "Postharvest Loss (%)" = some 60 ∧
    (m.lookup "Postharvest Loss (%)" = none →
      (interventions_to_vector m).getD 13 0 = 0.40) := by
  have hlen20 : i < INTERVENTIONS.length := by
    simpa [INTERVENTIONS] using hi
  have hget : (interventions_to_vector m).getD i 0 =
      lever_value m (INTERVENTIONS.getD i "") := by
    rw [itv_eq_map]
    exact getD_map_str INTERVENTIONS (lever_value m) i hlen20
  have hget13 : (interventions_to_vector m).getD 13 0 =
      lever_value m "Postharvest Loss (%)" := by
    rw [itv_eq_map]
    rw [getD_map_str INTERVENTIONS (lever_value m) 13 (by simp [INTERVENTIONS])]
    rfl
  refine ⟨?_, ?_, ?_, rfl, of_decide_eq_true (by with_unfolding_all rfl), ?_⟩
  · rw [itv_eq_map]
    simp [INTERVENTIONS]
  · intro raw hraw
    rw [hget, lever_value]
    simp only [dictGet, hraw, Option.getD_some]
    by_cases hname : INTERVENTIONS.getD i "" = "Postharvest Loss (%)"
    · rw [hname]
      simp
    · rw [if_neg hname, if_neg hname]
  · intro hnone
    rw [hget, lever_value]
    simp only [dictGet, hnone, Option.getD_none]
    by_cases hname : INTERVENTIONS.getD i "" = "Postharvest Loss (%)"
    · rw [hname]
      simp
    · rw [if_neg hname, if_neg hname]
  · intro hnone13
    rw [hget13, lever_value]
    simp only [dictGet, hnone13, Option.getD_none, if_pos rfl]
    have hdef : (DEFAULT_TARGETS.lookup "Postharvest Loss (%)").getD 50 = (60:ℚ) :=
      of_decide_eq_true (by with_unfolding_all rfl)
    rw [hdef]
    norm_num

/-- C6 witness: the theorem instantiated at the empty mapping (every lever
omitted) and the inverted lever's index 13 — the entry is the default-based
0.40. -/
theorem c6_interventions_to_vector_witness :
    (13 : Nat) < 20 ∧
    ((interventions_to_vector []).length = 20 ∧
     (∀ raw, List.lookup (INTERVENTIONS.getD 13 "") ([] : List (String × ℚ)) = some raw →
       (interventions_to_vector []).getD 13 0 =
         (if INTERVENTIONS.getD 13 "" = "Postharvest Loss (%)"
          then (100 - raw) / 100 else raw / 100)) ∧
     (List.lookup (INTERVENTIONS.getD 13 "") ([] : List (String × ℚ)) = none →
       (interventions_to_vector []).getD 13 0 =
         (if INTERVENTIONS.getD 13 "" = "Postharvest Loss (%)"
          then (100 - (DEFAULT_TARGETS.lookup (INTERVENTIONS.getD 13 "")).getD 50) / 100
          else ((DEFAULT_TARGETS.lookup (INTERVENTIONS.getD 13 "")).getD 50) / 100)) ∧
     INTERVENTIONS.getD 13 "" = "Postharvest Loss (%)" ∧
     DEFAULT_TARGETS.lookup "Postharvest Loss (%)" = some 60 ∧
     (List.lookup "Postharvest Loss (%)" ([] : List (String × ℚ)) = none →
       (interventions_to_vector []).getD 13 0 = 0.40)) :=
  ⟨by decide, c6_interventions_to_vector [] 13 (by decide)⟩

/-- C8: with a common draw stream and seed, for nonnegative length-20
vectors A ≤ B elementwise, and barring catastrophic draws (no annual factor
of the A-run is negative), every B-path terminal dominates the A-path
terminal, so the returned success probability for B is at least that for A
— with zero noise margin, because the shared floor volatility makes the two
runs consume identical shocks. -/
theorem c8_probability_monotone (gauss : Nat → Nat → ℚ) (vA vB : List ℚ)
    (n : Nat) (hA : vA.length = 20) (hB : vB.length = 20)
    (hA0 : ∀ x ∈ vA, 0 ≤ x) (hB0 : ∀ x ∈ vB, 0 ≤ x)
    (hAB : ∀ i ∈ List.range 20, vA.getD i 0 ≤ vB.getD i 0)
    (hshock : ∀ k, 0 ≤ 1 + drift vA + volatility_floor * gauss 42 k) :
    probOf (run_simulation gauss vA n) ≤ probOf (run_simulation gauss vB n) := by
  have hvolA : vol vA = volatility_floor := vol_eq_floor vA hA0
  have hvolB : vol vB = volatility_floor := vol_eq_floor vB hB0
  have hd : drift vA ≤ drift vB :=
    drift_mono vA vB hA hB (fun i hi => hAB i (List.mem_range.mpr hi))
  rw [run_simulation_some gauss vA n hA, run_simulation_some gauss vB n hB]
  simp only [probOf, Option.map_some', Option.getD_some]
  show probability (simDist gauss vA n) ≤ probability (simDist gauss vB n)
  rw [probability, probability, simDist_length, simDist_length]
  have hcount : countGE target_ag_ppp (simDist gauss vA n) ≤
      countGE target_ag_ppp (simDist gauss vB n) := by
    rw [simDist_eq, simDist_eq]
    apply countGE_map_le
    intro p _
    rw [hvolA, hvolB]
    have hbase : (0:ℚ) ≤ base_ag_ppp := by rw [base_ag_ppp]; norm_num
    apply mul_le_mul_of_nonneg_left _ hbase
    apply Finset.prod_le_prod
    · intro j _
      exact hshock (25 * p + j)
    · intro j _
      linarith
  rcases Nat.eq_zero_or_pos n with rfl | hn
  · norm_num
  · have hnQ : (0:ℚ) < (n:ℚ) := by exact_mod_cast hn
    exact (div_le_div_iff_of_pos_right hnQ).mpr (by exact_mod_cast hcount)

/-- C8 witness: the theorem instantiated at the all-zero draw stream with
A the all-zero and B the all-one vector, one path each. -/
theorem c8_probability_monotone_witness :
    (∀ i ∈ List.range 20, v20zero.getD i 0 ≤ v20one.getD i 0) ∧
    probOf (run_simulation gauss0 v20zero 1) ≤
      probOf (run_simulation gauss0 v20one 1) :=
  ⟨of_decide_eq_true (by with_unfolding_all rfl),
   c8_probability_monotone gauss0 v20zero v20one 1 (by decide) (by decide)
     (of_decide_eq_true (by with_unfolding_all rfl))
     (of_decide_eq_true (by with_unfolding_all rfl))
     (of_decide_eq_true (by with_unfolding_all rfl))
     (fun _ =>
       (of_decide_eq_true (by with_unfolding_all rfl) :
         (0:ℚ) ≤ 1 + drift v20zero + volatility_floor * 0))⟩

/-- C9 counterexample: the multiplicative process CAN produce a
non-positive terminal value — with a draw stream whose standard-normal
draws are −100 (inside the support of the normal distribution), the single
path of a run on the all-zero vector ends at a negative terminal value, so
"never yields a zero or negative terminal value" is false of the update
rule itself. -/
theorem c9_nonpositive_terminal_possible :
    ∃ x ∈ distOf (run_simulation gaussNeg v20zero 1), x ≤ 0 :=
  of_decide_eq_true (by with_unfolding_all rfl)

/-- C9 amended: terminal values are strictly positive provided no annual
factor `1 + drift + shock` is zero or negative, i.e. as long as every
shock exceeds −(1 + drift); the geometric process from the positive start
803 then stays positive.  (Unconditional positivity fails — see the
counterexample — exactly in the pathological-shock edge case the spec
flags.) -/
theorem c9_positive_terminals (gauss : Nat → Nat → ℚ) (v : List ℚ) (n : Nat)
    (h : v.length = 20)
    (hshock : ∀ k, 0 < 1 + drift v + vol v * gauss 42 k) :
    ∀ x ∈ distOf (run_simulation gauss v n), 0 < x := by
  intro x hx
  rw [run_simulation_some gauss v n h] at hx
  simp only [distOf, Option.map_some', Option.getD_some] at hx
  rw [simDist_eq] at hx
  obtain ⟨p, hp, rfl⟩ := List.mem_map.mp hx
  apply mul_pos
  · rw [base_ag_ppp]; norm_num
  · apply Finset.prod_pos
    intro j _
    exact hshock (25 * p + j)

/-- C9 witness: the amended theorem instantiated at the all-zero draw
stream and the all-zero vector. -/
theorem c9_positive_terminals_witness :
    (∀ k : Nat, 0 < 1 + drift v20zero + vol v20zero * gauss0 42 k) ∧
    ∀ x ∈ distOf (run_simulation gauss0 v20zero 1), 0 < x :=
  ⟨fun _ =>
     (of_decide_eq_true (by with_unfolding_all rfl) :
       (0:ℚ) < 1 + drift v20zero + vol v20zero * 0),
   c9_positive_terminals gauss0 v20zero 1 (by decide)
     (fun _ =>
       (of_decide_eq_true (by with_unfolding_all rfl) :
         (0:ℚ) < 1 + drift v20zero + vol v20zero * 0))⟩

/-- C10 (implicit invariant): in the serving engine the configured floor
0.05 exceeds the base volatility 0.02, so for every intervention vector
with nonnegative entries the realized per-year shock standard deviation is
exactly the floor — the beta-driven reduction never influences the
simulation for any valid input. -/
theorem c10_floor_always_active (v : List ℚ) (hv : ∀ x ∈ v, 0 ≤ x) :
    vol v = volatility_floor ∧ volatility_floor = 0.05 ∧
      base_volatility < volatility_floor :=
  ⟨vol_eq_floor v hv, rfl,
   by rw [base_volatility, volatility_floor]; norm_num⟩

/-- C10 witness: the theorem instantiated at the all-one vector. -/
theorem c10_floor_always_active_witness :
    (∀ x ∈ v20one, (0:ℚ) ≤ x) ∧
    (vol v20one = volatility_floor ∧ volatility_floor = 0.05 ∧
      base_volatility < volatility_floor) :=
  ⟨of_decide_eq_true (by with_unfolding_all rfl),
   c10_floor_always_active v20one
     (of_decide_eq_true (by with_unfolding_all rfl))⟩

end RwandaTwin
